import Mathlib

/-!
Shallow embedding of the core of the broadband-speedtest skid
(`src/bb_speed/helpers.py` and the mirrored private functions in
`src/bb_speed/main.py`): the jitter engine, the bandwidth classifier,
the county aggregator and the census reference normalization.

Randomness (`random.randint`) is modelled by an explicit oracle: an
infinite stream of naturals together with a cursor; each call to
`randint` consumes one stream cell and maps it into the requested
inclusive range.  Python floats holding speeds are modelled as
`Option ℚ` (`none` = missing/NaN, whose comparisons are all false, the
IEEE behaviour numpy gives the conditions).  In-place mutation of the
SHAPE dicts is modelled with an explicit heap (a list of shapes
addressed by position) so that the `.copy()` in `_jitter_row` is
visible.
-/

set_option maxHeartbeats 1000000

namespace BBSpeed

/-- The global `random` module state: an oracle stream of naturals and a cursor. -/
structure RNG where
  stream : Nat → Nat
  idx : Nat

/-- `random.randint(lo, hi)`: consumes one oracle cell and returns a value in
the inclusive range `[lo, hi]` (for `lo ≤ hi`). -/
def randint (lohi : Int × Int) (g : RNG) : Int × RNG :=
  (lohi.1 + (g.stream g.idx : Int) % (lohi.2 - lohi.1 + 1), ⟨g.stream, g.idx + 1⟩)

/-- A SHAPE dict: a point geometry with x and y coordinates. -/
structure Shape where
  x : ℚ
  y : ℚ
  deriving DecidableEq

/-- `_jitter_row(series, group_jitter, individual_range)` (helpers.py:70-78),
value-level view: draws the record's own x then y offsets and returns a new
shape shifted by group plus individual offsets per axis. -/
def jitter_row (series : Shape) (group_jitter : Int × Int)
    (individual_range : Int × Int) (g : RNG) : Shape × RNG :=
  let p1 := randint individual_range g
  let p2 := randint individual_range p1.2
  (⟨series.x + (group_jitter.1 : ℚ) + (p1.1 : ℚ),
    series.y + (group_jitter.2 : ℚ) + (p2.1 : ℚ)⟩, p2.2)

/-- The `dataframe.apply(_jitter_row, ..., axis=1)` loop: rows processed in
order, threading the random state. -/
def jitterRows : List Shape → Int × Int → Int × Int → RNG → List Shape × RNG
  | [], _, _, g => ([], g)
  | r :: rs, gj, ir, g =>
    let p := jitter_row r gj ir g
    let rest := jitterRows rs gj ir p.2
    (p.1 :: rest.1, rest.2)

/-- `jitter_shape_series(dataframe, group_range, individual_range)`
(helpers.py:42-67): draws one (gx, gy) for the whole group, then applies
`_jitter_row` to each row in order. -/
def jitter_shape_series (dataframe : List Shape) (group_range individual_range : Int × Int)
    (g : RNG) : List Shape × RNG :=
  let px := randint group_range g
  let py := randint group_range px.2
  jitterRows dataframe (px.1, py.1) individual_range py.2

/-! ### Heap view of the jitter engine (for the mutation guarantee)

The SHAPE dicts live in a heap (list of shapes addressed by index).
`series['SHAPE'].copy()` allocates a fresh cell holding a copy;
`shape['x'] = ...` mutates a cell in place. -/

/-- A heap of SHAPE dicts, addressed by position. -/
abbrev Heap := List Shape

/-- `dict.copy()`: allocate a fresh cell holding a copy of cell `a`,
returning the new heap and the fresh address. -/
def heapCopy (h : Heap) (a : Nat) : Heap × Nat :=
  (h ++ [h.getD a ⟨0, 0⟩], h.length)

/-- `shape[k] = ...`: in-place update of the cell at address `a`. -/
def heapModify (h : Heap) (a : Nat) (f : Shape → Shape) : Heap :=
  h.set a (f (h.getD a ⟨0, 0⟩))

/-- `_jitter_row` at the heap level, line for line: draw the individual
offsets, `.copy()` the row's shape, then mutate the copy's x and y. -/
def jitter_row_heap (h : Heap) (a : Nat) (gj : Int × Int) (ir : Int × Int)
    (g : RNG) : Heap × Nat × RNG :=
  let p1 := randint ir g
  let p2 := randint ir p1.2
  let cb := heapCopy h a
  let h2 := heapModify cb.1 cb.2 (fun s => { s with x := s.x + (gj.1 : ℚ) + (p1.1 : ℚ) })
  let h3 := heapModify h2 cb.2 (fun s => { s with y := s.y + (gj.2 : ℚ) + (p2.1 : ℚ) })
  (h3, cb.2, p2.2)

/-- The per-row apply loop at the heap level: each row's SHAPE address is
processed in order; the returned addresses point at the new shapes. -/
def jitterRowsHeap : Heap → List Nat → Int × Int → Int × Int → RNG → Heap × List Nat × RNG
  | h, [], _, _, g => (h, [], g)
  | h, a :: as, gj, ir, g =>
    let p := jitter_row_heap h a gj ir g
    let rest := jitterRowsHeap p.1 as gj ir p.2.2
    (rest.1, p.2.1 :: rest.2.1, rest.2.2)

/-- `jitter_shape_series` at the heap level: one group draw, then the row loop. -/
def jitter_shape_series_heap (h : Heap) (addrs : List Nat)
    (group_range individual_range : Int × Int) (g : RNG) : Heap × List Nat × RNG :=
  let px := randint group_range g
  let py := randint group_range px.2
  jitterRowsHeap h addrs (px.1, py.1) individual_range py.2

/-! ### Classifier -/

/-- `df['dl'] >= c` on a possibly-missing float: NaN/missing compares false. -/
def optGE (v : Option ℚ) (c : ℚ) : Bool :=
  match v with
  | some x => decide (c ≤ x)
  | none => false

/-- `df['dl'] < c` on a possibly-missing float: NaN/missing compares false. -/
def optLT (v : Option ℚ) (c : ℚ) : Bool :=
  match v with
  | some x => decide (x < c)
  | none => false

/-- `np.select(conditions, choices, default)`: first true condition wins. -/
def npSelect : List Bool → List String → String → String
  | [], _, d => d
  | _ :: _, [], d => d
  | c :: cs, ch :: chs, d => if c then ch else npSelect cs chs d

/-- The three conditions and choices of `classify_speedtest_data`
(helpers.py:29-39) evaluated for one record's (dl, ul). -/
def classify_one (dl ul : Option ℚ) : String :=
  npSelect
    [optGE dl 100 && optGE ul 20,
     (optGE dl 100 && (optLT ul 20 && optGE ul 3)) ||
       (optGE ul 3 && (optLT dl 100 && optGE dl 20)),
     optLT dl 25 || optLT ul 3]
    ["above 100/20", "between 100/20 and 25/3", "under 25/3"]
    "n/a"

/-- One speedtest record's numeric speed fields. -/
structure SpeedRec where
  dl : Option ℚ
  ul : Option ℚ
  deriving DecidableEq

/-- A speedtest dataframe: the record rows plus the (mutable) derived
`classification` column, `none` when the column is absent. -/
structure SpeedDF where
  recs : List SpeedRec
  classification : Option (List String)
  deriving DecidableEq

/-- `classify_speedtest_data(speedtest_df)` (helpers.py:29-39): computes the
per-row tags and assigns them to the dataframe's `classification` column in
place; the function's return value and the caller's input are the same
(mutated) object, given here as the resulting dataframe value. -/
def classify_speedtest_data (df : SpeedDF) : SpeedDF :=
  { df with classification := some (df.recs.map (fun r => classify_one r.dl r.ul)) }

/-- Rule list written from the spec's words (§4.1 / claim C2), as an ordered
first-match-wins chain; the spec's tag names `above-100-20`,
`between-100-20-and-25-3`, `under-25-3`, `not-applicable` denote the code's
strings given in this order. -/
def specClassify (dl ul : ℚ) : String :=
  if 100 ≤ dl ∧ 20 ≤ ul then "above 100/20"
  else if (100 ≤ dl ∧ 3 ≤ ul ∧ ul < 20) ∨ (3 ≤ ul ∧ 20 ≤ dl ∧ dl < 100) then
    "between 100/20 and 25/3"
  else if dl < 25 ∨ ul < 3 then "under 25/3"
  else "n/a"

/-! ### County aggregator -/

/-- One speedtest record as seen by the county aggregator: its submission id
and its county attribution string. -/
structure TestRecord where
  id : String
  county : String
  deriving DecidableEq

/-- One row of the normalized household reference: county name and the raw
(string-typed, as reported by the census payload) household count. -/
structure HouseholdRow where
  name : String
  total_households : String
  deriving DecidableEq

/-- A float value as produced by pandas division: finite, ±inf or NaN. -/
inductive ExtVal where
  | finite (q : ℚ)
  | inf
  | neginf
  | nan
  deriving DecidableEq

/-- Whether an `ExtVal` is a finite number. -/
def ExtVal.isFinite : ExtVal → Bool
  | .finite _ => true
  | _ => false

/-- Float division `t / h` as pandas performs it: division by zero yields
±inf (or NaN for 0/0) instead of raising. -/
def floatDiv (t h : Int) : ExtVal :=
  if h = 0 then
    if t = 0 then .nan else if 0 < t then .inf else .neginf
  else .finite ((t : ℚ) / (h : ℚ))

/-- One output row of the county summary. -/
structure CountyRow where
  name : String
  tests : Nat
  total_households : Int
  percent_response : ExtVal
  deriving DecidableEq

/-- Lexicographic comparison of character lists by code point, the string
order pandas sorts group keys with. -/
def strLeChars : List Char → List Char → Bool
  | [], _ => true
  | _ :: _, [] => false
  | a :: as, b :: bs =>
    if a.toNat < b.toNat then true
    else if b.toNat < a.toNat then false
    else strLeChars as bs

/-- String comparison by code points. -/
def strLe (a b : String) : Bool :=
  strLeChars a.data b.data

/-- Python `int(...)` on a digit string as `astype(int)` applies it:
an optional sign followed by decimal digits; anything else fails. -/
def digitsToNat : List Char → Nat → Option Nat
  | [], acc => some acc
  | c :: cs, acc =>
    if c.isDigit then digitsToNat cs (acc * 10 + (c.toNat - 48)) else none

/-- `int(s)` for a decimal string, `none` when unparseable. -/
def str_toInt (s : String) : Option Int :=
  match s.data with
  | [] => none
  | '-' :: cs =>
    if cs.isEmpty then none else (digitsToNat cs 0).map (fun n => -(n : Int))
  | cs => (digitsToNat cs 0).map (fun n => (n : Int))

/-- Equality of `Except` results is decidable componentwise. -/
instance exceptDecEq {ε α : Type} [DecidableEq ε] [DecidableEq α] :
    DecidableEq (Except ε α) := fun x y =>
  match x, y with
  | .ok a, .ok b =>
    match decEq a b with
    | isTrue h => isTrue (by rw [h])
    | isFalse h => isFalse (fun hc => h (by injection hc))
  | .error a, .error b =>
    match decEq a b with
    | isTrue h => isTrue (by rw [h])
    | isFalse h => isFalse (fun hc => h (by injection hc))
  | .ok _, .error _ => isFalse (fun hc => Except.noConfusion hc)
  | .error _, .ok _ => isFalse (fun hc => Except.noConfusion hc)

/-- The distinct county keys of `all_tests_df.groupby('county')`, in the
sorted order pandas' groupby produces. -/
def countyKeys (df : List TestRecord) : List String :=
  List.insertionSort (fun a b => strLe a b = true) (df.map (fun r => r.county)).dedup

/-- `all_tests_df.groupby('county')['id'].count()` (helpers.py:138): the
per-county record count (every record carries an id, so the non-null count
is the record count). -/
def countyCounts (df : List TestRecord) : List (String × Nat) :=
  (countyKeys df).map (fun c => (c, df.countP (fun r => r.county == c)))

/-- `.merge(household_df, left_on='county', right_on='name')`: inner join of
the per-county counts with the household reference, left order preserved. -/
def countyJoin (household_df : List HouseholdRow) (df : List TestRecord) :
    List ((String × Nat) × HouseholdRow) :=
  (countyCounts df).flatMap
    (fun p => (household_df.filter (fun h => h.name == p.1)).map (fun h => (p, h)))

/-- `astype(int)` on one raw household count followed by the division: fails
(as `astype` raises) when the string does not parse to an integer. -/
def buildRow (p : (String × Nat) × HouseholdRow) : Except String CountyRow :=
  match str_toInt p.2.total_households with
  | none => .error ("invalid literal for int: " ++ p.2.total_households)
  | some n => .ok ⟨p.2.name, p.1.2, n, floatDiv (p.1.2 : Int) n⟩

/-- Effectful map over a list in `Except`: the first failure aborts, as a
raised exception would. -/
def mapE (f : α → Except String β) : List α → Except String (List β)
  | [] => .ok []
  | a :: as =>
    match f a with
    | .error e => .error e
    | .ok b =>
      match mapE f as with
      | .error e => .error e
      | .ok bs => .ok (b :: bs)

/-- `calc_county_summary(household_df, all_tests_df)` (helpers.py:136-147):
count tests per county, inner-join against the household reference, coerce
`total_households` to int (raising on bad values) and compute
`percent_response = tests / total_households`. -/
def calc_county_summary (household_df : List HouseholdRow) (all_tests_df : List TestRecord) :
    Except String (List CountyRow) :=
  mapE buildRow (countyJoin household_df all_tests_df)

/-! ### Census reference normalization -/

/-- A dataframe row as an ordered association of column name to cell value. -/
abbrev Row := List (String × String)

/-- `row[col]`: the value of a column in a row (the columns accessed are
always present in the payloads the function is used on). -/
def getCol (r : Row) (k : String) : String :=
  ((r.find? (fun p => p.1 == k)).map (fun p => p.2)).getD ""

/-- `row[col] = v` for an existing column. -/
def setCol (r : Row) (k v : String) : Row :=
  r.map (fun p => if p.1 == k then (k, v) else p)

/-- The hardcoded Utah county name → 5-digit FIPS table of `load_census_data`
(helpers.py:86-116). -/
def names_to_fips : List (String × String) :=
  [("BEAVER", "49001"), ("BOX ELDER", "49003"), ("CACHE", "49005"),
   ("CARBON", "49007"), ("DAGGETT", "49009"), ("DAVIS", "49011"),
   ("DUCHESNE", "49013"), ("EMERY", "49015"), ("GARFIELD", "49017"),
   ("GRAND", "49019"), ("IRON", "49021"), ("JUAB", "49023"),
   ("KANE", "49025"), ("MILLARD", "49027"), ("MORGAN", "49029"),
   ("PIUTE", "49031"), ("RICH", "49033"), ("SALT LAKE", "49035"),
   ("SAN JUAN", "49037"), ("SANPETE", "49039"), ("SEVIER", "49041"),
   ("SUMMIT", "49043"), ("TOOELE", "49045"), ("UINTAH", "49047"),
   ("UTAH", "49049"), ("WASATCH", "49051"), ("WASHINGTON", "49053"),
   ("WAYNE", "49055"), ("WEBER", "49057")]

/-- `str.title()` on the character list: a letter is uppercased when the
previous character is not a letter, lowercased otherwise. -/
def titleChars : List Char → Bool → List Char
  | [], _ => []
  | c :: cs, prevAlpha =>
    (if c.isAlpha then (if prevAlpha then c.toLower else c.toUpper) else c) ::
      titleChars cs c.isAlpha

/-- `pd.Series.str.title()` on one string. -/
def titleCase (s : String) : String :=
  ⟨titleChars s.data false⟩

/-- `load_census_data` (helpers.py:81-133) from the decoded JSON payload on:
first row is the header, build `cofips = state + county`, inner-join the
FIPS table on `cofips == fips`, title-case the name and append " County",
drop the raw state/county/cofips/fips columns and rename `DP02_0001E` to
`total_households`. -/
def load_census_data (payload : List (List String)) : List Row :=
  match payload with
  | [] => []
  | header :: data =>
    let rows : List Row := data.map (fun r => header.zip r)
    let rows := rows.map (fun r => r ++ [("cofips", getCol r "state" ++ getCol r "county")])
    let rows := rows.flatMap
      (fun r => (names_to_fips.filter (fun p => p.2 == getCol r "cofips")).map
        (fun p => r ++ [("name", p.1), ("fips", p.2)]))
    let rows := rows.map (fun r => setCol r "name" (titleCase (getCol r "name") ++ " County"))
    let rows := rows.map (fun r => r.filter
      (fun p => !(p.1 == "state" || p.1 == "county" || p.1 == "cofips" || p.1 == "fips")))
    rows.map (fun r => r.map (fun p => if p.1 == "DP02_0001E" then ("total_households", p.2) else p))

/-! ### Concrete fixtures used by witnesses and counterexamples -/

/-- A one-record batch without a `classification` column. -/
def dfC5 : SpeedDF := ⟨[⟨some 100, some 20⟩], none⟩

/-- Household reference fixture: Weber 10, Utah 20, plus a county with no tests. -/
def hhC6 : List HouseholdRow := [⟨"Weber", "10"⟩, ⟨"Utah", "20"⟩, ⟨"Cache", "5"⟩]

/-- Test-record fixture: two Weber tests, two Utah tests, one test in a county
absent from the household reference. -/
def testsC6 : List TestRecord :=
  [⟨"1", "Weber"⟩, ⟨"2", "Utah"⟩, ⟨"3", "Weber"⟩, ⟨"4", "Utah"⟩, ⟨"5", "Iron"⟩]

/-- The expected Utah summary row of the `hhC6`/`testsC6` fixture. -/
def rowUtah : CountyRow := ⟨"Utah", 2, 20, .finite (1 / 10)⟩

/-- The expected Weber summary row of the `hhC6`/`testsC6` fixture. -/
def rowWeber : CountyRow := ⟨"Weber", 2, 10, .finite (1 / 5)⟩

/-- A one-row census payload: header then Weber county's data row. -/
def censusPayload : List (List String) :=
  [["DP02_0001E", "state", "county"], ["87802", "49", "057"]]

/-- A one-point input group for the jitter engine. -/
def rows0 : List Shape := [⟨1, 2⟩]

/-- A concrete random oracle (all stream cells zero). -/
def rng0 : RNG := ⟨fun _ => 0, 0⟩

/-! ## Theorems -/

/-- C2: for present numeric speeds the classifier agrees with the spec's
ordered first-match-wins rule list (`specClassify`), always produces one of
the four tags, and at the boundaries dl=100, ul=20 gives the above-100/20
tag while dl=25, ul=3 falls through rule 3's strict tests and resolves via
rule 2 to the between tag. -/
theorem classify_rules_spec :
    (∀ dl ul : ℚ, classify_one (some dl) (some ul) = specClassify dl ul) ∧
    (∀ dl ul : Option ℚ,
      classify_one dl ul ∈ ["above 100/20", "between 100/20 and 25/3", "under 25/3", "n/a"]) ∧
    classify_one (some 100) (some 20) = "above 100/20" ∧
    classify_one (some 25) (some 3) = "between 100/20 and 25/3" := by
  refine ⟨?_, ?_, by decide, by decide⟩
  · intro dl ul
    by_cases h1 : 100 ≤ dl <;> by_cases h2 : 20 ≤ ul <;> by_cases h3 : 3 ≤ ul <;>
      by_cases h4 : 20 ≤ dl <;> by_cases h5 : 25 ≤ dl <;>
      simp [classify_one, npSelect, optGE, optLT, specClassify, ← not_le, h1, h2, h3, h4, h5]
  · intro dl ul
    simp only [classify_one, npSelect]
    split_ifs <;> simp

/-- C5 counterexample: the classifier assigns the `classification` column to
its input dataframe in place, so the caller's batch is modified — on a batch
without a classification column the post-call batch differs from the input. -/
theorem classify_mutates_input : classify_speedtest_data dfC5 ≠ dfC5 := by
  decide

/-- C5 amended: the classifier never modifies the input records' speed
fields, only the derived `classification` column, and it is deterministic
and idempotent — running it twice yields the same tags (indeed the same
dataframe) as running it once. -/
theorem classify_pure_on_speeds :
    (∀ df : SpeedDF, (classify_speedtest_data df).recs = df.recs) ∧
    (∀ df : SpeedDF,
      classify_speedtest_data (classify_speedtest_data df) = classify_speedtest_data df) := by
  exact ⟨fun df => rfl, fun df => rfl⟩

/-- C9 counterexample: a record with missing dl but ul = 1 is tagged
`under 25/3` by rule 3's `ul < 3` test, not `n/a`. -/
theorem classify_missing_not_na :
    classify_one none (some 1) = "under 25/3" ∧ classify_one none (some 1) ≠ "n/a" := by
  decide

/-- C9 amended: a record with a missing/non-numeric speed value never raises
(the classifier is total); it resolves to `n/a` unless the other, present
value alone satisfies rule 3's strict test (`dl < 25` or `ul < 3`), in which
case it is tagged `under 25/3`; with both values missing it resolves to
`n/a`. -/
theorem classify_missing_resolves :
    (∀ ul : Option ℚ,
      classify_one none ul = if optLT ul 3 then "under 25/3" else "n/a") ∧
    (∀ dl : Option ℚ,
      classify_one dl none = if optLT dl 25 then "under 25/3" else "n/a") ∧
    classify_one none none = "n/a" := by
  refine ⟨?_, ?_, by decide⟩
  · intro ul
    rcases ul with _ | u
    · rfl
    · by_cases h : u < 3 <;> simp [classify_one, npSelect, optGE, optLT, h]
  · intro dl
    rcases dl with _ | d
    · rfl
    · by_cases h : d < 25 <;>
        by_cases h2 : 100 ≤ d <;> by_cases h3 : 20 ≤ d <;>
        simp [classify_one, npSelect, optGE, optLT, h, h2, h3]

/-- `random.randint(lo, hi)` returns a value in the inclusive range. -/
theorem randint_mem (lohi : Int × Int) (g : RNG) (h : lohi.1 ≤ lohi.2) :
    lohi.1 ≤ (randint lohi g).1 ∧ (randint lohi g).1 ≤ lohi.2 := by
  have hne : lohi.2 - lohi.1 + 1 ≠ 0 := by omega
  have h1 : 0 ≤ (g.stream g.idx : Int) % (lohi.2 - lohi.1 + 1) :=
    Int.emod_nonneg _ hne
  have h2 : (g.stream g.idx : Int) % (lohi.2 - lohi.1 + 1) < lohi.2 - lohi.1 + 1 :=
    Int.emod_lt_of_pos _ (by omega)
  unfold randint
  constructor <;> simp <;> omega

/-- The per-row apply loop returns one output row per input row. -/
theorem jitterRows_length (rows : List Shape) (gj ir : Int × Int) (g : RNG) :
    ((jitterRows rows gj ir g).1).length = rows.length := by
  induction rows generalizing g with
  | nil => rfl
  | cons r rs ih => simp [jitterRows, ih]

/-- Each output row of the apply loop is its input row shifted by the shared
group offset plus a per-row individual offset drawn from the given range. -/
theorem jitterRows_getD (rows : List Shape) (gj ir : Int × Int) (g : RNG)
    (hir : ir.1 ≤ ir.2) :
    ∀ i, i < rows.length →
      ∃ ix iy : Int, ir.1 ≤ ix ∧ ix ≤ ir.2 ∧ ir.1 ≤ iy ∧ iy ≤ ir.2 ∧
        ((jitterRows rows gj ir g).1).getD i ⟨0, 0⟩ =
          ⟨(rows.getD i ⟨0, 0⟩).x + (gj.1 : ℚ) + (ix : ℚ),
           (rows.getD i ⟨0, 0⟩).y + (gj.2 : ℚ) + (iy : ℚ)⟩ := by
  induction rows generalizing g with
  | nil => intro i hi; simp at hi
  | cons r rs ih =>
    intro i hi
    cases i with
    | zero =>
      refine ⟨(randint ir g).1, (randint ir (randint ir g).2).1,
        (randint_mem ir g hir).1, (randint_mem ir g hir).2,
        (randint_mem ir _ hir).1, (randint_mem ir _ hir).2, ?_⟩
      simp [jitterRows, jitter_row]
    | succ n =>
      have hn : n < rs.length := by simpa using hi
      obtain ⟨ix, iy, a1, a2, a3, a4, he⟩ := ih (jitter_row r gj ir g).2 n hn
      exact ⟨ix, iy, a1, a2, a3, a4, by simpa [jitterRows] using he⟩

/-- C1: for any group of records and any integer ranges (lo ≤ hi), the
jitter engine returns exactly one output per input record, in input order
(position i of the output corresponds to position i of the input), where
there is a single group offset (gx, gy) drawn from `group_range` shared by
every record, and each record has its own individual offset (ix, iy) from
`individual_range` (drawn per record from the advancing random stream), the
new position being the original plus (gx+ix, gy+iy) applied per axis. -/
theorem jitter_one_new_xy (rows : List Shape) (gr ir : Int × Int) (g : RNG)
    (hgr : gr.1 ≤ gr.2) (hir : ir.1 ≤ ir.2) :
    ((jitter_shape_series rows gr ir g).1).length = rows.length ∧
    ∃ gx gy : Int, gr.1 ≤ gx ∧ gx ≤ gr.2 ∧ gr.1 ≤ gy ∧ gy ≤ gr.2 ∧
      ∀ i, i < rows.length →
        ∃ ix iy : Int, ir.1 ≤ ix ∧ ix ≤ ir.2 ∧ ir.1 ≤ iy ∧ iy ≤ ir.2 ∧
          ((jitter_shape_series rows gr ir g).1).getD i ⟨0, 0⟩ =
            ⟨(rows.getD i ⟨0, 0⟩).x + ((gx + ix : Int) : ℚ),
             (rows.getD i ⟨0, 0⟩).y + ((gy + iy : Int) : ℚ)⟩ := by
  constructor
  · exact jitterRows_length rows _ ir _
  · refine ⟨(randint gr g).1, (randint gr (randint gr g).2).1,
      (randint_mem gr g hgr).1, (randint_mem gr g hgr).2,
      (randint_mem gr _ hgr).1, (randint_mem gr _ hgr).2, ?_⟩
    intro i hi
    obtain ⟨ix, iy, a1, a2, a3, a4, he⟩ :=
      jitterRows_getD rows ((randint gr g).1, (randint gr (randint gr g).2).1) ir
        (randint gr (randint gr g).2).2 hir i hi
    refine ⟨ix, iy, a1, a2, a3, a4, ?_⟩
    show ((jitterRows rows _ ir _).1).getD i ⟨0, 0⟩ = _
    rw [he]
    simp only [Shape.mk.injEq]
    constructor <;> push_cast <;> ring

/-- C1 witness: the ranges (-150,150) and (-20,20) are admissible and on a
concrete one-point group with a concrete oracle the output is one-to-one
with the input. -/
theorem jitter_one_new_xy_witness :
    ((-150 : Int) ≤ 150) ∧ ((-20 : Int) ≤ 20) ∧
    ((jitter_shape_series rows0 ((-150 : Int), 150) ((-20 : Int), 20) rng0).1).length =
      rows0.length :=
  ⟨by decide, by decide,
    (jitter_one_new_xy rows0 ((-150 : Int), 150) ((-20 : Int), 20) rng0
      (by decide) (by decide)).1⟩

/-- C3: with group_range = (-150, 150) and individual_range = (-20, 20)
(range pairs denoting inclusive min/max bounds, as everywhere in the code),
every output coordinate's offset from the original lies within the
combined inclusive bounds, at most 170 in magnitude on each axis, for every
record and every outcome of the random draws. -/
theorem jitter_offset_bound (rows : List Shape) (g : RNG) (i : Nat)
    (hi : i < rows.length) :
    |(((jitter_shape_series rows (-150, 150) (-20, 20) g).1).getD i ⟨0, 0⟩).x -
        (rows.getD i ⟨0, 0⟩).x| ≤ 170 ∧
    |(((jitter_shape_series rows (-150, 150) (-20, 20) g).1).getD i ⟨0, 0⟩).y -
        (rows.getD i ⟨0, 0⟩).y| ≤ 170 := by
  have hgx := randint_mem ((-150 : Int), 150) g (by decide)
  have hgy := randint_mem ((-150 : Int), 150) (randint ((-150 : Int), 150) g).2 (by decide)
  obtain ⟨ix, iy, a1, a2, a3, a4, he⟩ :=
    jitterRows_getD rows
      ((randint ((-150 : Int), 150) g).1,
        (randint ((-150 : Int), 150) (randint ((-150 : Int), 150) g).2).1)
      ((-20 : Int), 20)
      (randint ((-150 : Int), 150) (randint ((-150 : Int), 150) g).2).2 (by decide) i hi
  have hshow : jitter_shape_series rows ((-150 : Int), 150) ((-20 : Int), 20) g =
      jitterRows rows
        ((randint ((-150 : Int), 150) g).1,
          (randint ((-150 : Int), 150) (randint ((-150 : Int), 150) g).2).1)
        ((-20 : Int), 20)
        (randint ((-150 : Int), 150) (randint ((-150 : Int), 150) g).2).2 := rfl
  rw [hshow, he]
  have c1 : ((-150 : Int) : ℚ) ≤ ((randint ((-150 : Int), 150) g).1 : ℚ) := by
    exact_mod_cast hgx.1
  have c2 : (((randint ((-150 : Int), 150) g).1 : ℚ)) ≤ 150 := by exact_mod_cast hgx.2
  have c3 : ((-150 : Int) : ℚ) ≤
      ((randint ((-150 : Int), 150) (randint ((-150 : Int), 150) g).2).1 : ℚ) := by
    exact_mod_cast hgy.1
  have c4 : ((randint ((-150 : Int), 150) (randint ((-150 : Int), 150) g).2).1 : ℚ) ≤ 150 := by
    exact_mod_cast hgy.2
  have d1 : ((-20 : Int) : ℚ) ≤ (ix : ℚ) := by exact_mod_cast a1
  have d2 : ((ix : ℚ)) ≤ 20 := by exact_mod_cast a2
  have d3 : ((-20 : Int) : ℚ) ≤ (iy : ℚ) := by exact_mod_cast a3
  have d4 : ((iy : ℚ)) ≤ 20 := by exact_mod_cast a4
  push_cast at c1 c2 c3 c4 d1 d2 d3 d4
  constructor <;> · rw [abs_le]; constructor <;> simp <;> linarith

/-- C3 witness: the bound evaluated on a concrete one-point group with a
concrete oracle. -/
theorem jitter_offset_bound_witness :
    |(((jitter_shape_series rows0 (-150, 150) (-20, 20) rng0).1).getD 0 ⟨0, 0⟩).x -
        (rows0.getD 0 ⟨0, 0⟩).x| ≤ 170 ∧
    |(((jitter_shape_series rows0 (-150, 150) (-20, 20) rng0).1).getD 0 ⟨0, 0⟩).y -
        (rows0.getD 0 ⟨0, 0⟩).y| ≤ 170 :=
  jitter_offset_bound rows0 rng0 0 (by decide)

/-- Setting one heap cell leaves every other cell unchanged. -/
theorem getD_set_ne (l : List Shape) (j i : Nat) (a d : Shape) (hne : j ≠ i) :
    (l.set j a).getD i d = l.getD i d := by
  simp [List.getD_eq_getD_get?, List.get?_eq_getElem?, List.getElem?_set_ne hne]

/-- `_jitter_row` allocates exactly one new cell (the `.copy()`). -/
theorem jitter_row_heap_length (h : Heap) (a : Nat) (gj ir : Int × Int) (g : RNG) :
    ((jitter_row_heap h a gj ir g).1).length = h.length + 1 := by
  simp [jitter_row_heap, heapCopy, heapModify]

/-- `_jitter_row` mutates only the fresh copy: every pre-existing heap cell
is unchanged. -/
theorem jitter_row_heap_preserves (h : Heap) (a : Nat) (gj ir : Int × Int) (g : RNG)
    (i : Nat) (hi : i < h.length) :
    ((jitter_row_heap h a gj ir g).1).getD i ⟨0, 0⟩ = h.getD i ⟨0, 0⟩ := by
  have hne : h.length ≠ i := by omega
  simp only [jitter_row_heap, heapCopy, heapModify]
  rw [getD_set_ne _ _ _ _ _ (by simpa using hne), getD_set_ne _ _ _ _ _ (by simpa using hne)]
  exact List.getD_append _ _ _ _ hi

/-- The shape returned by `_jitter_row` lives at a fresh address. -/
theorem jitter_row_heap_addr (h : Heap) (a : Nat) (gj ir : Int × Int) (g : RNG) :
    (jitter_row_heap h a gj ir g).2.1 = h.length := rfl

/-- The row loop preserves all pre-existing heap cells, never shrinks the
heap, and returns only fresh addresses. -/
theorem jitterRowsHeap_spec (addrs : List Nat) (gj ir : Int × Int) (h : Heap) (g : RNG) :
    (∀ i, i < h.length →
      ((jitterRowsHeap h addrs gj ir g).1).getD i ⟨0, 0⟩ = h.getD i ⟨0, 0⟩) ∧
    h.length ≤ ((jitterRowsHeap h addrs gj ir g).1).length ∧
    (∀ b ∈ (jitterRowsHeap h addrs gj ir g).2.1, h.length ≤ b) := by
  induction addrs generalizing h g with
  | nil => exact ⟨fun i _ => rfl, le_refl _, fun b hb => absurd hb (List.not_mem_nil b)⟩
  | cons a as ih =>
    obtain ⟨ihp, ihl, iha⟩ := ih (jitter_row_heap h a gj ir g).1 (jitter_row_heap h a gj ir g).2.2
    have hlen := jitter_row_heap_length h a gj ir g
    refine ⟨?_, ?_, ?_⟩
    · intro i hi
      have h1 : i < ((jitter_row_heap h a gj ir g).1).length := by omega
      calc ((jitterRowsHeap h (a :: as) gj ir g).1).getD i ⟨0, 0⟩
          = ((jitter_row_heap h a gj ir g).1).getD i ⟨0, 0⟩ := ihp i h1
        _ = h.getD i ⟨0, 0⟩ := jitter_row_heap_preserves h a gj ir g i hi
    · show h.length ≤ ((jitterRowsHeap (jitter_row_heap h a gj ir g).1 as gj ir
        (jitter_row_heap h a gj ir g).2.2).1).length
      omega
    · intro b hb
      rcases List.mem_cons.mp hb with hb | hb
      · subst hb; exact le_of_eq (jitter_row_heap_addr h a gj ir g).symm
      · have := iha b hb; omega

/-- C4: the jitter engine never mutates the input records' original
geometry: for every heap of SHAPE dicts, every group of row addresses and
every random outcome, after `jitter_shape_series` each original heap cell
holds exactly the value it held before the call, and the shifted geometries
are fresh copies (their addresses all lie past the original heap). -/
theorem jitter_heap_no_mutation (h : Heap) (addrs : List Nat) (gr ir : Int × Int)
    (g : RNG) (i : Nat) (hi : i < h.length) :
    ((jitter_shape_series_heap h addrs gr ir g).1).getD i ⟨0, 0⟩ = h.getD i ⟨0, 0⟩ ∧
    ∀ b ∈ (jitter_shape_series_heap h addrs gr ir g).2.1, h.length ≤ b := by
  obtain ⟨hp, _, ha⟩ := jitterRowsHeap_spec addrs
    ((randint gr g).1, (randint gr (randint gr g).2).1) ir h (randint gr (randint gr g).2).2
  exact ⟨hp i hi, ha⟩

/-- C4 witness: a concrete one-cell heap jittered at its only address keeps
its original geometry and the output address is fresh. -/
theorem jitter_heap_no_mutation_witness :
    ((jitter_shape_series_heap [⟨1, 2⟩] [0] (-150, 150) (-20, 20) rng0).1).getD 0 ⟨0, 0⟩ =
      ([⟨1, 2⟩] : Heap).getD 0 ⟨0, 0⟩ ∧
    ∀ b ∈ (jitter_shape_series_heap [⟨1, 2⟩] [0] (-150, 150) (-20, 20) rng0).2.1,
      ([⟨1, 2⟩] : Heap).length ≤ b :=
  jitter_heap_no_mutation [⟨1, 2⟩] [0] (-150, 150) (-20, 20) rng0 0 (by decide)

/-- Every element of a successful `mapE` run comes from an element of the
input list mapped successfully. -/
theorem mapE_ok_mem {α β : Type} {f : α → Except String β} :
    ∀ {l : List α} {out : List β}, mapE f l = .ok out → ∀ b ∈ out, ∃ a ∈ l, f a = .ok b := by
  intro l
  induction l with
  | nil =>
    intro out h b hb
    simp [mapE] at h
    subst h
    simp at hb
  | cons a as ih =>
    intro out h b hb
    simp only [mapE] at h
    cases hfa : f a with
    | error e => rw [hfa] at h; exact absurd h (by simp)
    | ok b0 =>
      rw [hfa] at h
      cases hrest : mapE f as with
      | error e => rw [hrest] at h; exact absurd h (by simp)
      | ok bs =>
        rw [hrest] at h
        have : b0 :: bs = out := by simpa using h
        subst this
        rcases List.mem_cons.mp hb with hb | hb
        · exact ⟨a, List.mem_cons_self a as, by rw [hfa, hb]⟩
        · obtain ⟨a2, ha2, he2⟩ := ih hrest b hb
          exact ⟨a2, List.mem_cons_of_mem a ha2, he2⟩

/-- If some list element always fails, `mapE` fails. -/
theorem mapE_error_of_mem {α β : Type} {f : α → Except String β} {l : List α} {a : α}
    (ha : a ∈ l) (he : ∀ b, f a ≠ .ok b) : ∃ e, mapE f l = .error e := by
  induction l with
  | nil => exact absurd ha (List.not_mem_nil a)
  | cons a0 as ih =>
    simp only [mapE]
    cases hfa : f a0 with
    | error e => exact ⟨e, rfl⟩
    | ok b0 =>
      rcases List.mem_cons.mp ha with h0 | h0
      · subst h0; exact absurd hfa (he b0)
      · obtain ⟨e, hrec⟩ := ih h0
        rw [hrec]
        exact ⟨e, rfl⟩

/-- The counting step produces exactly one entry per distinct county key,
carrying the number of records attributed to that county. -/
theorem countyCounts_mem_iff (df : List TestRecord) (c : String) (n : Nat) :
    (c, n) ∈ countyCounts df ↔
      (c ∈ df.map (fun r => r.county) ∧ n = df.countP (fun r => r.county == c)) := by
  unfold countyCounts countyKeys
  constructor
  · intro h
    obtain ⟨k, hk, he⟩ := List.mem_map.mp h
    have h1 : k = c := congrArg Prod.fst he
    subst h1
    have h2 : df.countP (fun r => r.county == k) = n := congrArg Prod.snd he
    refine ⟨?_, h2.symm⟩
    exact List.mem_dedup.mp ((List.mem_insertionSort _).mp hk)
  · rintro ⟨h1, rfl⟩
    apply List.mem_map.mpr
    exact ⟨c, (List.mem_insertionSort _).mpr (List.mem_dedup.mpr h1), rfl⟩

/-- C7: the counting step's per-county tests value equals the total number
of records carrying that county attribution — every record is counted and
records sharing the same id are not deduplicated (two records with id "7"
in Weber yield a count of 2). -/
theorem county_counts_every_record (df : List TestRecord) (c : String) :
    (c ∈ df.map (fun r => r.county) →
      (c, (df.filter (fun r => r.county == c)).length) ∈ countyCounts df) ∧
    (∀ n, (c, n) ∈ countyCounts df → n = (df.filter (fun r => r.county == c)).length) ∧
    countyCounts [⟨"7", "Weber"⟩, ⟨"7", "Weber"⟩] = [("Weber", 2)] := by
  refine ⟨?_, ?_, by rfl⟩
  · intro hc
    exact (countyCounts_mem_iff df c _).mpr ⟨hc, (List.countP_eq_length_filter _ _).symm⟩
  · intro n hn
    rw [((countyCounts_mem_iff df c n).mp hn).2, List.countP_eq_length_filter]

/-- C7 witness: the count evaluated on a concrete one-record batch. -/
theorem county_counts_every_record_witness :
    ("Weber",
      (([⟨"7", "Weber"⟩] : List TestRecord).filter (fun r => r.county == "Weber")).length) ∈
      countyCounts [⟨"7", "Weber"⟩] :=
  (county_counts_every_record [⟨"7", "Weber"⟩] "Weber").1 (by decide)

/-- C6: on households Weber 10, Utah 20 (plus a testless county) and test
counts Weber 2, Utah 2 (plus a test in a county with no reference row) the
aggregator outputs exactly the two joined counties with tests = 2,
percent_response 1/5 for Weber and 1/10 for Utah; and in general every
output row corresponds to a county present on both sides (inner join) with
percent_response = tests / total_households computed without rounding or
clamping. -/
theorem county_summary_inner_join :
    calc_county_summary hhC6 testsC6 = .ok [rowUtah, rowWeber] ∧
    (∀ hh tests out, calc_county_summary hh tests = .ok out → ∀ row ∈ out,
      (∃ t ∈ tests, t.county = row.name) ∧ (∃ hr ∈ hh, hr.name = row.name) ∧
      row.percent_response = floatDiv (row.tests : Int) row.total_households) := by
  constructor
  · have hj : countyJoin hhC6 testsC6 =
        [(("Utah", 2), ⟨"Utah", "20"⟩), (("Weber", 2), ⟨"Weber", "10"⟩)] := by decide
    show mapE buildRow (countyJoin hhC6 testsC6) = _
    rw [hj]
    have h20 : str_toInt "20" = some 20 := by decide
    have h10 : str_toInt "10" = some 10 := by decide
    simp [mapE, buildRow, h20, h10, floatDiv, rowUtah, rowWeber]
    norm_num
  · intro hh tests out hok row hrow
    obtain ⟨a, ha, hae⟩ := mapE_ok_mem hok row hrow
    obtain ⟨p, hp, ha2⟩ := List.mem_flatMap.mp ha
    obtain ⟨hr, hhr, hpe⟩ := List.mem_map.mp ha2
    subst hpe
    simp only [buildRow] at hae
    cases htoi : str_toInt hr.total_households with
    | none => rw [htoi] at hae; exact absurd hae (by simp)
    | some nval =>
      rw [htoi] at hae
      have hrow_eq : row = ⟨hr.name, p.2, nval, floatDiv (p.2 : Int) nval⟩ := by
        simpa using hae.symm
      subst hrow_eq
      have hfilter := List.mem_filter.mp hhr
      have hname : hr.name = p.1 := by simpa using hfilter.2
      refine ⟨?_, ⟨hr, hfilter.1, rfl⟩, rfl⟩
      have hp2 : (p.1, p.2) ∈ countyCounts tests := by simpa using hp
      obtain ⟨hc1, _⟩ := (countyCounts_mem_iff tests p.1 p.2).mp hp2
      obtain ⟨t, ht, hte⟩ := List.mem_map.mp hc1
      exact ⟨t, ht, by rw [hte, hname]⟩

/-- C6 witness: the general inner-join clause applied to the fixture and
its Utah output row. -/
theorem county_summary_inner_join_witness :
    (∃ t ∈ testsC6, t.county = rowUtah.name) ∧ (∃ hr ∈ hhC6, hr.name = rowUtah.name) ∧
    rowUtah.percent_response = floatDiv (rowUtah.tests : Int) rowUtah.total_households :=
  county_summary_inner_join.2 hhC6 testsC6 [rowUtah, rowWeber]
    county_summary_inner_join.1 rowUtah (List.mem_cons_self rowUtah [rowWeber])

/-- C8: if a joined county's raw total_households value does not parse to an
integer, the aggregator raises (returns an error); a parseable zero value is
not guarded — the output row's percent_response is a non-finite value (inf
or NaN) and no error is raised, as the concrete zero-household fixture
shows (percent_response = inf). -/
theorem county_summary_zero_and_parse (hh : List HouseholdRow) (tests : List TestRecord) :
    (∀ hr ∈ hh, hr.name ∈ tests.map (fun r => r.county) →
      str_toInt hr.total_households = none →
      ∃ e, calc_county_summary hh tests = .error e) ∧
    (∀ out, calc_county_summary hh tests = .ok out → ∀ row ∈ out,
      row.total_households = 0 → row.percent_response.isFinite = false) ∧
    calc_county_summary [⟨"Weber", "0"⟩] [⟨"1", "Weber"⟩] = .ok [⟨"Weber", 1, 0, .inf⟩] := by
  refine ⟨?_, ?_, ?_⟩
  · intro hr hmem hcounty htoi
    have hmem2 : ((hr.name, tests.countP (fun r => r.county == hr.name)), hr) ∈
        countyJoin hh tests := by
      apply List.mem_flatMap.mpr
      refine ⟨(hr.name, tests.countP (fun r => r.county == hr.name)), ?_, ?_⟩
      · exact (countyCounts_mem_iff tests hr.name _).mpr ⟨hcounty, rfl⟩
      · exact List.mem_map.mpr ⟨hr, List.mem_filter.mpr ⟨hmem, by simp⟩, rfl⟩
    have hne : ∀ b, buildRow ((hr.name, tests.countP (fun r => r.county == hr.name)), hr) ≠
        .ok b := by
      intro b
      simp [buildRow, htoi]
    exact mapE_error_of_mem hmem2 hne
  · intro out hok row hrow hzero
    obtain ⟨a, ha, hae⟩ := mapE_ok_mem hok row hrow
    simp only [buildRow] at hae
    cases htoi : str_toInt a.2.total_households with
    | none => rw [htoi] at hae; exact absurd hae (by simp)
    | some nval =>
      rw [htoi] at hae
      have hrow_eq : row = ⟨a.2.name, a.1.2, nval, floatDiv (a.1.2 : Int) nval⟩ := by
        simpa using hae.symm
      subst hrow_eq
      have hzero2 : nval = 0 := hzero
      subst hzero2
      simp only [floatDiv, if_pos rfl]
      split_ifs <;> rfl
  · have hj : countyJoin [⟨"Weber", "0"⟩] [⟨"1", "Weber"⟩] =
        [(("Weber", 1), ⟨"Weber", "0"⟩)] := by decide
    show mapE buildRow _ = _
    rw [hj]
    have h0 : str_toInt "0" = some 0 := by decide
    simp [mapE, buildRow, h0, floatDiv]

/-- C8 witness: an unparseable household count on a joined county makes the
aggregator raise. -/
theorem county_summary_zero_and_parse_witness :
    ∃ e, calc_county_summary [⟨"Weber", "abc"⟩] [⟨"1", "Weber"⟩] = .error e :=
  (county_summary_zero_and_parse [⟨"Weber", "abc"⟩] [⟨"1", "Weber"⟩]).1
    ⟨"Weber", "abc"⟩ (by decide) (by decide) (by decide)

/-- C10: census normalization on the payload whose first row is the header:
the Weber row (state '49', county '057', DP02_0001E '87802') comes out with
name "Weber County" (title-cased, " County" suffixed, matched through the
fixed lookup by the concatenated zero-padded codes) and total_households
kept as the reported string '87802'; the lookup table has exactly 29
entries; and every output row of any payload has the raw state, county,
cofips, fips and DP02_0001E columns dropped or renamed away. -/
theorem census_normalization :
    load_census_data censusPayload =
      [[("total_households", "87802"), ("name", "Weber County")]] ∧
    names_to_fips.length = 29 ∧
    (∀ payload r, r ∈ load_census_data payload → ∀ p ∈ r,
      p.1 ≠ "state" ∧ p.1 ≠ "county" ∧ p.1 ≠ "cofips" ∧ p.1 ≠ "fips" ∧
        p.1 ≠ "DP02_0001E") := by
  refine ⟨by decide, by decide, ?_⟩
  intro payload r hr p hp
  cases payload with
  | nil => simp [load_census_data] at hr
  | cons header data =>
    simp only [load_census_data] at hr
    obtain ⟨r5, hr5, hre⟩ := List.mem_map.mp hr
    subst hre
    obtain ⟨q, hq, hqe⟩ := List.mem_map.mp hp
    obtain ⟨r6, hr6, hr6e⟩ := List.mem_map.mp hr5
    subst hr6e
    have hqf := List.mem_filter.mp hq
    have hpred := hqf.2
    simp only [Bool.not_eq_true', Bool.or_eq_false_iff, beq_eq_false_iff_ne] at hpred
    obtain ⟨⟨⟨hs, hc⟩, hcf⟩, hf⟩ := hpred
    subst hqe
    split_ifs with hd
    · refine ⟨?_, ?_, ?_, ?_, ?_⟩ <;> simp
    · have hd2 : q.1 ≠ "DP02_0001E" := by simpa using hd
      exact ⟨hs, hc, hcf, hf, hd2⟩

/-- C10 witness: the column-dropping clause applied to the concrete Weber
payload and its first output cell. -/
theorem census_normalization_witness :
    ("total_households", "87802").1 ≠ "state" ∧
    ("total_households", "87802").1 ≠ "county" ∧
    ("total_households", "87802").1 ≠ "cofips" ∧
    ("total_households", "87802").1 ≠ "fips" ∧
    ("total_households", "87802").1 ≠ "DP02_0001E" :=
  census_normalization.2.2 censusPayload
    [("total_households", "87802"), ("name", "Weber County")] (by decide)
    ("total_households", "87802") (by decide)

end BBSpeed
